import Mathlib

/-!
Shallow embedding of parts of the kokkos-kernels repository:
  * `KokkosSparse::Experimental::SPILUKHandle` (KokkosSparse_spiluk_handle.hpp)
  * sparse matrix generators and binary graph I/O (KokkosSparse_IOUtils.hpp)
  * the Iamax BLAS-1 reduction (KokkosBlas1_iamax_impl.hpp)

Modelling conventions: the unsigned `size_type` is `Nat`; the signed
ordinal `nnz_lno_t` and `int` are `Int`; Kokkos `View`s are Lean lists
(a rank-2 view is a list of lists).  A view constructed with a label is
zero-initialized by Kokkos, so it is modelled as `List.replicate len 0`;
a default-constructed view has extent 0 and is modelled as `[]`.
C++ functions that `throw` are modelled with `Except`.
-/

namespace KokkosSparse
namespace Experimental

/-- enum class SPILUKAlgorithm (TP2 is commented out in the source). -/
inductive SPILUKAlgorithm where
  | SEQLVLSCHD_RP
  | SEQLVLSCHD_TP1
deriving DecidableEq, Repr

/-- The state of a `SPILUKHandle`.  Field names and order follow the
private data members of the C++ class. -/
structure SPILUKHandle where
  level_list : List Nat            -- nnz_row_view_t (size_type entries)
  level_idx : List Int             -- nnz_lno_view_t
  level_ptr : List Int             -- nnz_lno_view_t
  level_nchunks : List Int         -- nnz_lno_view_host_t
  level_nrowsperchunk : List Int   -- nnz_lno_view_host_t
  iw : List (List Int)             -- work_view_t (rank 2, nnz_lno_t entries)
  nrows : Nat
  nlevels : Nat
  nnzL : Nat
  nnzU : Nat
  level_maxrows : Nat
  level_maxrowsperchunk : Nat
  symbolic_complete : Bool
  algm : SPILUKAlgorithm
  team_size : Int
  vector_size : Int
deriving DecidableEq, Repr

namespace SPILUKHandle

/-- The C++ constructor
`SPILUKHandle(choice, nrows_, nnzL_, nnzU_, symbolic_complete_ = false)`:
all views default-constructed (extent 0), `nlevels`, `level_maxrows`
and `level_maxrowsperchunk` zero, `team_size` and `vector_size` `-1`. -/
def mk5 (choice : SPILUKAlgorithm) (nrows_ nnzL_ nnzU_ : Nat)
    (symbolic_complete_ : Bool) : SPILUKHandle :=
  { level_list := []
    level_idx := []
    level_ptr := []
    level_nchunks := []
    level_nrowsperchunk := []
    iw := []
    nrows := nrows_
    nlevels := 0
    nnzL := nnzL_
    nnzU := nnzU_
    level_maxrows := 0
    level_maxrowsperchunk := 0
    symbolic_complete := symbolic_complete_
    algm := choice
    team_size := -1
    vector_size := -1 }

/-- Construction with only the four lifecycle arguments: the defaulted
parameter `symbolic_complete_ = false` is applied. -/
def new (choice : SPILUKAlgorithm) (nrows_ nnzL_ nnzU_ : Nat) : SPILUKHandle :=
  mk5 choice nrows_ nnzL_ nnzU_ false

def set_algorithm (h : SPILUKHandle) (choice : SPILUKAlgorithm) : SPILUKHandle :=
  { h with algm := choice }

def get_algorithm (h : SPILUKHandle) : SPILUKAlgorithm := h.algm

def get_level_list (h : SPILUKHandle) : List Nat := h.level_list

def get_level_idx (h : SPILUKHandle) : List Int := h.level_idx

def get_level_ptr (h : SPILUKHandle) : List Int := h.level_ptr

def get_level_nchunks (h : SPILUKHandle) : List Int := h.level_nchunks

def alloc_level_nchunks (h : SPILUKHandle) (nlevels_ : Nat) : SPILUKHandle :=
  { h with level_nchunks := List.replicate nlevels_ 0 }

def get_level_nrowsperchunk (h : SPILUKHandle) : List Int := h.level_nrowsperchunk

def alloc_level_nrowsperchunk (h : SPILUKHandle) (nlevels_ : Nat) : SPILUKHandle :=
  { h with level_nrowsperchunk := List.replicate nlevels_ 0 }

def get_iw (h : SPILUKHandle) : List (List Int) := h.iw

/-- `alloc_iw(nrows_, ncols_)`: allocate `iw` with extents
`nrows_ × ncols_` (without initializing) and then `deep_copy` the
value `nnz_lno_t(-1)` into every entry. -/
def alloc_iw (h : SPILUKHandle) (nrows_ ncols_ : Nat) : SPILUKHandle :=
  { h with iw := List.replicate nrows_ (List.replicate ncols_ (-1 : Int)) }

def get_nrows (h : SPILUKHandle) : Nat := h.nrows

def set_nrows (h : SPILUKHandle) (nrows_ : Nat) : SPILUKHandle :=
  { h with nrows := nrows_ }

def get_nnzL (h : SPILUKHandle) : Nat := h.nnzL

def set_nnzL (h : SPILUKHandle) (nnzL_ : Nat) : SPILUKHandle :=
  { h with nnzL := nnzL_ }

def get_nnzU (h : SPILUKHandle) : Nat := h.nnzU

def set_nnzU (h : SPILUKHandle) (nnzU_ : Nat) : SPILUKHandle :=
  { h with nnzU := nnzU_ }

def get_level_maxrows (h : SPILUKHandle) : Nat := h.level_maxrows

def set_level_maxrows (h : SPILUKHandle) (level_maxrows_ : Nat) : SPILUKHandle :=
  { h with level_maxrows := level_maxrows_ }

def get_level_maxrowsperchunk (h : SPILUKHandle) : Nat := h.level_maxrowsperchunk

def set_level_maxrowsperchunk (h : SPILUKHandle) (v : Nat) : SPILUKHandle :=
  { h with level_maxrowsperchunk := v }

def is_symbolic_complete (h : SPILUKHandle) : Bool := h.symbolic_complete

def get_num_levels (h : SPILUKHandle) : Nat := h.nlevels

def set_num_levels (h : SPILUKHandle) (nlevels_ : Nat) : SPILUKHandle :=
  { h with nlevels := nlevels_ }

def set_symbolic_complete (h : SPILUKHandle) : SPILUKHandle :=
  { h with symbolic_complete := true }

def reset_symbolic_complete (h : SPILUKHandle) : SPILUKHandle :=
  { h with symbolic_complete := false }

def set_team_size (h : SPILUKHandle) (ts : Int) : SPILUKHandle :=
  { h with team_size := ts }

def get_team_size (h : SPILUKHandle) : Int := h.team_size

def set_vector_size (h : SPILUKHandle) (vs : Int) : SPILUKHandle :=
  { h with vector_size := vs }

def get_vector_size (h : SPILUKHandle) : Int := h.vector_size

/-- `reset_handle(nrows_, nnzL_, nnzU_)`, statement by statement:
the six setter calls, then reassignment of the views (`level_list`,
`level_idx`, `level_ptr` to zero-initialized views of extents `nrows_`,
`nrows_`, `nrows_ + 1`; `level_nchunks`, `level_nrowsperchunk` and `iw`
to default-constructed extent-0 views) and `reset_symbolic_complete()`. -/
def reset_handle (h : SPILUKHandle) (nrows_ nnzL_ nnzU_ : Nat) : SPILUKHandle :=
  let h1 := set_nrows h nrows_
  let h2 := set_num_levels h1 0
  let h3 := set_nnzL h2 nnzL_
  let h4 := set_nnzU h3 nnzU_
  let h5 := set_level_maxrows h4 0
  let h6 := set_level_maxrowsperchunk h5 0
  let h7 := { h6 with
    level_list := List.replicate nrows_ 0
    level_idx := List.replicate nrows_ 0
    level_ptr := List.replicate (nrows_ + 1) 0
    level_nchunks := []
    level_nrowsperchunk := [] }
  let h8 := reset_symbolic_complete h7
  { h8 with iw := [] }

/-- `StringToSPILUKAlgorithm`: three recognized names, anything else
throws `std::runtime_error("Invalid SPILUKAlgorithm name")`. -/
def StringToSPILUKAlgorithm (name : String) : Except String SPILUKAlgorithm :=
  if name = "SPILUK_DEFAULT" then .ok .SEQLVLSCHD_RP
  else if name = "SPILUK_RANGEPOLICY" then .ok .SEQLVLSCHD_RP
  else if name = "SPILUK_TEAMPOLICY1" then .ok .SEQLVLSCHD_TP1
  else .error "Invalid SPILUKAlgorithm name"

end SPILUKHandle

end Experimental
end KokkosSparse

namespace KokkosSparse
namespace Impl

/-- The loop `while (pos < 0) pos += ncols;` from
`kk_sparseMatrix_generate` (guarded so that it is total: for
`ncols = 0` the C loop would not terminate on negative input). -/
def wrapUp (ncols : Nat) (pos : Int) : Int :=
  if _h : ncols = 0 then pos
  else if _h2 : pos < 0 then wrapUp ncols (pos + ncols) else pos
termination_by (-pos).toNat
decreasing_by
  omega

/-- The loop `while (pos >= ncols) pos -= ncols;`. -/
def wrapDown (ncols : Nat) (pos : Int) : Int :=
  if _h : ncols = 0 then pos
  else if _h2 : (ncols : Int) ≤ pos then wrapDown ncols (pos - ncols) else pos
termination_by pos.toNat
decreasing_by
  omega

/-- Both wrap loops in sequence, mapping a raw candidate position into
`[0, ncols)`. -/
def wrapPos (ncols : Nat) (pos : Int) : Int := wrapDown ncols (wrapUp ncols pos)

/-- The rejection loop of `kk_sparseMatrix_generate`: draw a raw
position from the random stream, wrap it into range, linearly scan the
columns already placed in this row (`is_already_in_the_row`) and retry
on a duplicate.  The unbounded `while (true)` is modelled by running
out of the finite draw list (`none`). -/
def pickPos (ncols : Nat) (prev : List Int) : List Int → Option (Int × List Int)
  | [] => none
  | d :: ds =>
    if wrapPos ncols d ∈ prev then pickPos ncols prev ds
    else some (wrapPos ncols d, ds)

/-- The loop `for k = rowPtr[row] .. rowPtr[row+1])` filling one row of
`colInd` with `cnt` fresh positions. -/
def buildRow (ncols : Nat) : Nat → List Int → List Int → Option (List Int × List Int)
  | 0, acc, draws => some (acc, draws)
  | cnt + 1, acc, draws =>
    match pickPos ncols acc draws with
    | none => none
    | some (pos, ds) => buildRow ncols cnt (acc ++ [pos]) ds

/-- The outer row loop of the `colInd` filling phase; returns the rows
of `colInd` (the flat array split at the row pointers). -/
def buildColInd (ncols : Nat) : List Nat → List Int → Option (List (List Int) × List Int)
  | [], draws => some ([], draws)
  | len :: lens, draws =>
    match buildRow ncols len [] draws with
    | none => none
    | some (row, ds) =>
      match buildColInd ncols lens ds with
      | none => none
      | some (rows, ds2) => some (row :: rows, ds2)

/-- One iteration of the row-pointer loop of `kk_sparseMatrix_generate`:
`numRowEntries = elements_per_row + varianz`, clamped below at `0` and
above at `0.66 * ncols`.  For a nonnegative integer left operand the
double comparison with `0.66 * ncols` and the truncating assignment
agree with the exact threshold `66 * ncols / 100` rounded down. -/
def genRowLen (ncols : Nat) (elements_per_row varianz : Int) : Nat :=
  let t : Nat := 66 * ncols / 100
  let e : Int := elements_per_row + varianz
  let e : Int := if e < 0 then 0 else e
  if e > (t : Int) then t else e.toNat

/-- The CRS data produced by `kk_sparseMatrix_generate`: `rowPtr`
(length `nrows + 1`), the per-row slices of `colInd`, and the output
value of the in/out parameter `nnz` (read back as `rowPtr[nrows]`). -/
structure GeneratedCrs where
  rowPtr : List Nat
  rows : List (List Int)
  nnz : Nat
deriving DecidableEq, Repr

/-- `kk_sparseMatrix_generate(nrows, ncols, nnz, ...)`.  The `rand()`
stream is abstracted: `varianz` holds the per-row variance draws
(the value `(1.0*rand()/RAND_MAX - 0.5) * row_size_variance` truncated
to int) and `draws` the raw column positions
`(1.0*rand()/RAND_MAX - 0.5) * bandwidth + row` of the inner loop.
`values` are filled from a separate random pool and carry no claimed
structure, so they are not materialized here. -/
def kk_sparseMatrix_generate (nrows ncols nnz : Nat)
    (varianz : List Int) (draws : List Int) : Option GeneratedCrs :=
  let elements_per_row : Int := if nrows = 0 then 0 else ((nnz / nrows : Nat) : Int)
  let lens := varianz.map (fun v => genRowLen ncols elements_per_row v)
  let rowPtr := lens.scanl (fun a b => a + b) 0
  match buildColInd ncols lens draws with
  | none => none
  | some (rows, _) => some { rowPtr := rowPtr, rows := rows, nnz := rowPtr.getLastD 0 }

/-- Row length written by the row-pointer loop of
`kk_sparseMatrix_generate_lower_upper_triangle`:
`rowPtr[row+1] = rowPtr[row] + row + 1` for uplo `'L'`, and
`rowPtr[row] + ncols - row` otherwise. -/
def lut_rowlen (uplo : Char) (ncols : Nat) (row : Nat) : Int :=
  if uplo = 'L' then (row : Int) + 1 else (ncols : Int) - row

/-- The row pointers of the lower/upper triangle generator. -/
def lut_rowPtr (uplo : Char) (ncols : Nat) : Nat → Int
  | 0 => 0
  | row + 1 => lut_rowPtr uplo ncols row + lut_rowlen uplo ncols row

/-- One row of `colInd`: for `k` in `[rowPtr[row], rowPtr[row+1])`,
`colInd[k] = k - rowPtr[row]` for uplo `'L'` and
`row + (k - rowPtr[row])` otherwise. -/
def lut_colRow (uplo : Char) (ncols : Nat) (row : Nat) : List Int :=
  let rp := lut_rowPtr uplo ncols row
  let len := (lut_rowPtr uplo ncols (row + 1) - rp).toNat
  (List.range len).map (fun t : Nat =>
    if uplo = 'L' then (rp + (t : Int)) - rp else (row : Int) + ((rp + (t : Int)) - rp))

/-- One row of `values`: `values[k] = 1.0` on the same index range. -/
def lut_valRow (uplo : Char) (ncols : Nat) (row : Nat) : List Int :=
  let rp := lut_rowPtr uplo ncols row
  let len := (lut_rowPtr uplo ncols (row + 1) - rp).toNat
  List.replicate len (1 : Int)

/-- `kk_sparseMatrix_generate_lower_upper_triangle(uplo, nrows, ncols, nnz, ...)`:
returns (rowPtr, per-row colInd slices, per-row values slices, output nnz);
the output `nnz` is read back as `rowPtr[nrows]`. -/
def kk_sparseMatrix_generate_lower_upper_triangle (uplo : Char) (nrows ncols : Nat) :
    List Int × List (List Int) × List (List Int) × Int :=
  ((List.range (nrows + 1)).map (lut_rowPtr uplo ncols),
   (List.range nrows).map (lut_colRow uplo ncols),
   (List.range nrows).map (lut_valRow uplo ncols),
   lut_rowPtr uplo ncols nrows)

/-- Little-endian fixed-width byte encoding of one value, `w` bytes. -/
def encodeLE : Nat → Nat → List Nat
  | 0, _ => []
  | w + 1, v => v % 256 :: encodeLE w (v / 256)

/-- Decoding of a little-endian byte list. -/
def decodeLE : List Nat → Nat
  | [] => 0
  | b :: bs => b + 256 * decodeLE bs

/-- `myFile.read((char*)p, w)` for one `w`-byte field. -/
def readVal (w : Nat) (bs : List Nat) : Option (Nat × List Nat) :=
  if w ≤ bs.length then some (decodeLE (bs.take w), bs.drop w) else none

/-- `myFile.read((char*)p, w * n)` for an array of `n` `w`-byte fields. -/
def readVals (w : Nat) : Nat → List Nat → Option (List Nat × List Nat)
  | 0, bs => some ([], bs)
  | n + 1, bs =>
    match readVal w bs with
    | none => none
    | some (v, bs1) =>
      match readVals w n bs1 with
      | none => none
      | some (vs, bs2) => some (v :: vs, bs2)

/-- `write_graph_bin(nv, ne, xadj, adj, ew, filename)`: the file is the
byte stream `nv` (one `lno_t`, width `wl`), `ne` (one `size_type`,
width `ws`), then `nv + 1` row offsets, `ne` column indices and `ne`
edge weights (width `wsc`), in that order.  Field values are the raw
fixed-width bit patterns, modelled as `Nat` payloads. -/
def write_graph_bin (wl ws wsc : Nat) (nv ne : Nat)
    (xadj adj ew : List Nat) : List Nat :=
  encodeLE wl nv ++ encodeLE ws ne ++
    ((xadj.take (nv + 1)).map (encodeLE ws)).flatten ++
    ((adj.take ne).map (encodeLE wl)).flatten ++
    ((ew.take ne).map (encodeLE wsc)).flatten

/-- `read_graph_bin(nv, ne, xadj, adj, ew, filename)`: reads `nv`, `ne`,
then allocates and reads `nv + 1` row offsets, `ne` column indices and
`ne` edge weights, in that order. -/
def read_graph_bin (wl ws wsc : Nat) (file : List Nat) :
    Option (Nat × Nat × List Nat × List Nat × List Nat) :=
  match readVal wl file with
  | none => none
  | some (nv, f1) =>
    match readVal ws f1 with
    | none => none
    | some (ne, f2) =>
      match readVals ws (nv + 1) f2 with
      | none => none
      | some (xadj, f3) =>
        match readVals wl ne f3 with
        | none => none
        | some (adj, f4) =>
          match readVals wsc ne f4 with
          | none => none
          | some (ew, _) => some (nv, ne, xadj, adj, ew)

end Impl
end KokkosSparse

namespace KokkosBlas
namespace Impl

/-- `V_Iamax_Functor::operator()(i, lmaxloc)`: compare the magnitude of
`m_x(i-1)` against the magnitude of `m_x(lmaxloc-1)` and keep the
larger's 1-based index.  The scalar is modelled as `Int` with
`IPT::norm` as `Int.natAbs`; out-of-range accesses default to 0 but
never arise on the executed range. -/
def V_Iamax_step (x : List Int) (lmaxloc : Nat) (i : Nat) : Nat :=
  let val := (x.getD (i - 1) 0).natAbs
  let maxval := (x.getD (lmaxloc - 1) 0).natAbs
  if val > maxval then i else lmaxloc

/-- `V_Iamax_Invoke(r, X)`: writes 0 for a zero-length vector, otherwise
reduces over the 1-based range policy `[1, numRows + 1)` starting from
the init value `reduction_identity::max() + 1`, which is `0 + 1 = 1`
for the unsigned index value type.  The parallel reduction is modelled
by its sequential evaluation order. -/
def V_Iamax_Invoke (x : List Int) : Nat :=
  if x.length = 0 then 0
  else (List.range' 1 x.length).foldl (V_Iamax_step x) 1

end Impl
end KokkosBlas

/-! ## Theorems -/

section HandleTheorems

open KokkosSparse.Experimental
open KokkosSparse.Experimental.SPILUKHandle

/-- Claim C3: a handle constructed with the four lifecycle arguments
(algorithm choice, nrows, initial nnzL estimate, initial nnzU estimate)
has `symbolic_complete = false`, `num_levels`, `level_maxrows` and
`level_maxrowsperchunk` equal to 0, and
`get_algorithm`/`get_nrows`/`get_nnzL`/`get_nnzU` return the
constructor arguments. -/
theorem spiluk_constructor_state (choice : SPILUKAlgorithm) (nr nL nU : Nat) :
    is_symbolic_complete (SPILUKHandle.new choice nr nL nU) = false ∧
    get_num_levels (SPILUKHandle.new choice nr nL nU) = 0 ∧
    get_level_maxrows (SPILUKHandle.new choice nr nL nU) = 0 ∧
    get_level_maxrowsperchunk (SPILUKHandle.new choice nr nL nU) = 0 ∧
    get_algorithm (SPILUKHandle.new choice nr nL nU) = choice ∧
    get_nrows (SPILUKHandle.new choice nr nL nU) = nr ∧
    get_nnzL (SPILUKHandle.new choice nr nL nU) = nL ∧
    get_nnzU (SPILUKHandle.new choice nr nL nU) = nU :=
  ⟨rfl, rfl, rfl, rfl, rfl, rfl, rfl, rfl⟩

/-- Claim C2: `reset_handle(nrows, nnzL, nnzU)` stores the three
arguments, zeroes `num_levels`, `level_maxrows` and
`level_maxrowsperchunk`, reallocates `level_list` and `level_idx` to
zero-initialized arrays of length `nrows` and `level_ptr` to length
`nrows + 1`, re-initializes the chunk arrays and the `iw` scratch
mapping (to extent-0 views), and clears `symbolic_complete`. -/
theorem reset_handle_spec (h : SPILUKHandle) (nr nL nU : Nat) :
    get_nrows (reset_handle h nr nL nU) = nr ∧
    get_num_levels (reset_handle h nr nL nU) = 0 ∧
    get_nnzL (reset_handle h nr nL nU) = nL ∧
    get_nnzU (reset_handle h nr nL nU) = nU ∧
    get_level_maxrows (reset_handle h nr nL nU) = 0 ∧
    get_level_maxrowsperchunk (reset_handle h nr nL nU) = 0 ∧
    get_level_list (reset_handle h nr nL nU) = List.replicate nr 0 ∧
    get_level_idx (reset_handle h nr nL nU) = List.replicate nr 0 ∧
    get_level_ptr (reset_handle h nr nL nU) = List.replicate (nr + 1) 0 ∧
    get_level_nchunks (reset_handle h nr nL nU) = [] ∧
    get_level_nrowsperchunk (reset_handle h nr nL nU) = [] ∧
    get_iw (reset_handle h nr nL nU) = [] ∧
    is_symbolic_complete (reset_handle h nr nL nU) = false :=
  ⟨rfl, rfl, rfl, rfl, rfl, rfl, rfl, rfl, rfl, rfl, rfl, rfl, rfl⟩

/-- Claim C1, counterexample: on a handle that has been reset (so that
`is_symbolic_complete()` is false) the schedule accessor
`get_level_list` does not error and does not return an unreadable
(extent-0) view: it silently returns the allocated zero-filled array. -/
theorem guarded_access_counterexample :
    ¬ (is_symbolic_complete
         (reset_handle (SPILUKHandle.new .SEQLVLSCHD_RP 2 4 4) 2 4 4) = false →
       get_level_list
         (reset_handle (SPILUKHandle.new .SEQLVLSCHD_RP 2 4 4) 2 4 4) = []) := by
  decide

/-- Claim C1 as amended: the schedule accessors are unguarded and total;
they return the stored arrays regardless of `is_symbolic_complete()`.
On a freshly constructed handle the arrays are empty (extent 0), but
after `reset_handle` and before symbolic completion they are allocated
and readable (zero-filled), so a read before `symbolicComplete` is not
detected. -/
theorem level_accessors_unguarded (choice : SPILUKAlgorithm)
    (nr0 nL0 nU0 nr nL nU : Nat) :
    (is_symbolic_complete (SPILUKHandle.new choice nr0 nL0 nU0) = false ∧
     get_level_list (SPILUKHandle.new choice nr0 nL0 nU0) = [] ∧
     get_level_idx (SPILUKHandle.new choice nr0 nL0 nU0) = [] ∧
     get_level_ptr (SPILUKHandle.new choice nr0 nL0 nU0) = []) ∧
    (is_symbolic_complete
       (reset_handle (SPILUKHandle.new choice nr0 nL0 nU0) nr nL nU) = false ∧
     get_level_list
       (reset_handle (SPILUKHandle.new choice nr0 nL0 nU0) nr nL nU) =
         List.replicate nr 0 ∧
     get_level_idx
       (reset_handle (SPILUKHandle.new choice nr0 nL0 nU0) nr nL nU) =
         List.replicate nr 0 ∧
     get_level_ptr
       (reset_handle (SPILUKHandle.new choice nr0 nL0 nU0) nr nL nU) =
         List.replicate (nr + 1) 0) :=
  ⟨⟨rfl, rfl, rfl, rfl⟩, ⟨rfl, rfl, rfl, rfl⟩⟩

/-- Claim C4: `StringToSPILUKAlgorithm` maps "SPILUK_DEFAULT" and
"SPILUK_RANGEPOLICY" to `SEQLVLSCHD_RP` and "SPILUK_TEAMPOLICY1" to
`SEQLVLSCHD_TP1`; every other name throws the runtime error
"Invalid SPILUKAlgorithm name". -/
theorem stringToSPILUKAlgorithm_spec (name : String)
    (h1 : name ≠ "SPILUK_DEFAULT") (h2 : name ≠ "SPILUK_RANGEPOLICY")
    (h3 : name ≠ "SPILUK_TEAMPOLICY1") :
    StringToSPILUKAlgorithm "SPILUK_DEFAULT" = .ok .SEQLVLSCHD_RP ∧
    StringToSPILUKAlgorithm "SPILUK_RANGEPOLICY" = .ok .SEQLVLSCHD_RP ∧
    StringToSPILUKAlgorithm "SPILUK_TEAMPOLICY1" = .ok .SEQLVLSCHD_TP1 ∧
    StringToSPILUKAlgorithm name = .error "Invalid SPILUKAlgorithm name" := by
  refine ⟨rfl, rfl, rfl, ?_⟩
  simp [StringToSPILUKAlgorithm, h1, h2, h3]

/-- Witness for claim C4 at the concrete unrecognized name "SPILUK_FOO". -/
theorem stringToSPILUKAlgorithm_witness :
    StringToSPILUKAlgorithm "SPILUK_FOO" = .error "Invalid SPILUKAlgorithm name" :=
  (stringToSPILUKAlgorithm_spec "SPILUK_FOO" (by decide) (by decide) (by decide)).2.2.2

/-- Claim C5: after `alloc_iw(nrows, ncols)` the scratch mapping `iw`
has extents `nrows × ncols` and every entry equals the sentinel `-1`. -/
theorem alloc_iw_spec (h : SPILUKHandle) (nr nc : Nat) :
    (get_iw (alloc_iw h nr nc)).length = nr ∧
    ∀ row ∈ get_iw (alloc_iw h nr nc),
      row.length = nc ∧ ∀ v ∈ row, v = (-1 : Int) := by
  constructor
  · simp [alloc_iw, get_iw]
  · intro row hrow
    have hr := List.eq_of_mem_replicate hrow
    subst hr
    exact ⟨by simp, fun v hv => List.eq_of_mem_replicate hv⟩

/-- Witness for claim C5 on a concrete 2 × 3 allocation. -/
theorem alloc_iw_witness :
    (get_iw (alloc_iw (SPILUKHandle.new .SEQLVLSCHD_RP 0 0 0) 2 3)).length = 2 ∧
    (List.replicate 3 (-1 : Int)).length = 3 ∧ ((-1 : Int) = -1) := by
  have h := alloc_iw_spec (SPILUKHandle.new .SEQLVLSCHD_RP 0 0 0) 2 3
  have h2 := h.2 (List.replicate 3 (-1 : Int)) (by decide)
  exact ⟨h.1, h2.1, h2.2 (-1) (by decide)⟩


/-- C8: for every handle field exposed via an accessor/mutator pair
(nrows, nnzL, nnzU, level_maxrows, level_maxrowsperchunk, num_levels,
algorithm, team_size, vector_size), calling the setter with a value
makes the matching getter return that value and leaves every other
getter of the handle unchanged. -/
theorem setter_getter_frame (h : SPILUKHandle) (a : SPILUKAlgorithm)
    (v : Nat) (t : Int) :
    (get_nrows (set_nrows h v) = v) ∧
    (get_algorithm (set_nrows h v) = get_algorithm h) ∧
    (get_level_list (set_nrows h v) = get_level_list h) ∧
    (get_level_idx (set_nrows h v) = get_level_idx h) ∧
    (get_level_ptr (set_nrows h v) = get_level_ptr h) ∧
    (get_level_nchunks (set_nrows h v) = get_level_nchunks h) ∧
    (get_level_nrowsperchunk (set_nrows h v) = get_level_nrowsperchunk h) ∧
    (get_iw (set_nrows h v) = get_iw h) ∧
    (get_nnzL (set_nrows h v) = get_nnzL h) ∧
    (get_nnzU (set_nrows h v) = get_nnzU h) ∧
    (get_level_maxrows (set_nrows h v) = get_level_maxrows h) ∧
    (get_level_maxrowsperchunk (set_nrows h v) = get_level_maxrowsperchunk h) ∧
    (is_symbolic_complete (set_nrows h v) = is_symbolic_complete h) ∧
    (get_num_levels (set_nrows h v) = get_num_levels h) ∧
    (get_team_size (set_nrows h v) = get_team_size h) ∧
    (get_vector_size (set_nrows h v) = get_vector_size h) ∧
    (get_nnzL (set_nnzL h v) = v) ∧
    (get_algorithm (set_nnzL h v) = get_algorithm h) ∧
    (get_level_list (set_nnzL h v) = get_level_list h) ∧
    (get_level_idx (set_nnzL h v) = get_level_idx h) ∧
    (get_level_ptr (set_nnzL h v) = get_level_ptr h) ∧
    (get_level_nchunks (set_nnzL h v) = get_level_nchunks h) ∧
    (get_level_nrowsperchunk (set_nnzL h v) = get_level_nrowsperchunk h) ∧
    (get_iw (set_nnzL h v) = get_iw h) ∧
    (get_nrows (set_nnzL h v) = get_nrows h) ∧
    (get_nnzU (set_nnzL h v) = get_nnzU h) ∧
    (get_level_maxrows (set_nnzL h v) = get_level_maxrows h) ∧
    (get_level_maxrowsperchunk (set_nnzL h v) = get_level_maxrowsperchunk h) ∧
    (is_symbolic_complete (set_nnzL h v) = is_symbolic_complete h) ∧
    (get_num_levels (set_nnzL h v) = get_num_levels h) ∧
    (get_team_size (set_nnzL h v) = get_team_size h) ∧
    (get_vector_size (set_nnzL h v) = get_vector_size h) ∧
    (get_nnzU (set_nnzU h v) = v) ∧
    (get_algorithm (set_nnzU h v) = get_algorithm h) ∧
    (get_level_list (set_nnzU h v) = get_level_list h) ∧
    (get_level_idx (set_nnzU h v) = get_level_idx h) ∧
    (get_level_ptr (set_nnzU h v) = get_level_ptr h) ∧
    (get_level_nchunks (set_nnzU h v) = get_level_nchunks h) ∧
    (get_level_nrowsperchunk (set_nnzU h v) = get_level_nrowsperchunk h) ∧
    (get_iw (set_nnzU h v) = get_iw h) ∧
    (get_nrows (set_nnzU h v) = get_nrows h) ∧
    (get_nnzL (set_nnzU h v) = get_nnzL h) ∧
    (get_level_maxrows (set_nnzU h v) = get_level_maxrows h) ∧
    (get_level_maxrowsperchunk (set_nnzU h v) = get_level_maxrowsperchunk h) ∧
    (is_symbolic_complete (set_nnzU h v) = is_symbolic_complete h) ∧
    (get_num_levels (set_nnzU h v) = get_num_levels h) ∧
    (get_team_size (set_nnzU h v) = get_team_size h) ∧
    (get_vector_size (set_nnzU h v) = get_vector_size h) ∧
    (get_level_maxrows (set_level_maxrows h v) = v) ∧
    (get_algorithm (set_level_maxrows h v) = get_algorithm h) ∧
    (get_level_list (set_level_maxrows h v) = get_level_list h) ∧
    (get_level_idx (set_level_maxrows h v) = get_level_idx h) ∧
    (get_level_ptr (set_level_maxrows h v) = get_level_ptr h) ∧
    (get_level_nchunks (set_level_maxrows h v) = get_level_nchunks h) ∧
    (get_level_nrowsperchunk (set_level_maxrows h v) = get_level_nrowsperchunk h) ∧
    (get_iw (set_level_maxrows h v) = get_iw h) ∧
    (get_nrows (set_level_maxrows h v) = get_nrows h) ∧
    (get_nnzL (set_level_maxrows h v) = get_nnzL h) ∧
    (get_nnzU (set_level_maxrows h v) = get_nnzU h) ∧
    (get_level_maxrowsperchunk (set_level_maxrows h v) = get_level_maxrowsperchunk h) ∧
    (is_symbolic_complete (set_level_maxrows h v) = is_symbolic_complete h) ∧
    (get_num_levels (set_level_maxrows h v) = get_num_levels h) ∧
    (get_team_size (set_level_maxrows h v) = get_team_size h) ∧
    (get_vector_size (set_level_maxrows h v) = get_vector_size h) ∧
    (get_level_maxrowsperchunk (set_level_maxrowsperchunk h v) = v) ∧
    (get_algorithm (set_level_maxrowsperchunk h v) = get_algorithm h) ∧
    (get_level_list (set_level_maxrowsperchunk h v) = get_level_list h) ∧
    (get_level_idx (set_level_maxrowsperchunk h v) = get_level_idx h) ∧
    (get_level_ptr (set_level_maxrowsperchunk h v) = get_level_ptr h) ∧
    (get_level_nchunks (set_level_maxrowsperchunk h v) = get_level_nchunks h) ∧
    (get_level_nrowsperchunk (set_level_maxrowsperchunk h v) = get_level_nrowsperchunk h) ∧
    (get_iw (set_level_maxrowsperchunk h v) = get_iw h) ∧
    (get_nrows (set_level_maxrowsperchunk h v) = get_nrows h) ∧
    (get_nnzL (set_level_maxrowsperchunk h v) = get_nnzL h) ∧
    (get_nnzU (set_level_maxrowsperchunk h v) = get_nnzU h) ∧
    (get_level_maxrows (set_level_maxrowsperchunk h v) = get_level_maxrows h) ∧
    (is_symbolic_complete (set_level_maxrowsperchunk h v) = is_symbolic_complete h) ∧
    (get_num_levels (set_level_maxrowsperchunk h v) = get_num_levels h) ∧
    (get_team_size (set_level_maxrowsperchunk h v) = get_team_size h) ∧
    (get_vector_size (set_level_maxrowsperchunk h v) = get_vector_size h) ∧
    (get_num_levels (set_num_levels h v) = v) ∧
    (get_algorithm (set_num_levels h v) = get_algorithm h) ∧
    (get_level_list (set_num_levels h v) = get_level_list h) ∧
    (get_level_idx (set_num_levels h v) = get_level_idx h) ∧
    (get_level_ptr (set_num_levels h v) = get_level_ptr h) ∧
    (get_level_nchunks (set_num_levels h v) = get_level_nchunks h) ∧
    (get_level_nrowsperchunk (set_num_levels h v) = get_level_nrowsperchunk h) ∧
    (get_iw (set_num_levels h v) = get_iw h) ∧
    (get_nrows (set_num_levels h v) = get_nrows h) ∧
    (get_nnzL (set_num_levels h v) = get_nnzL h) ∧
    (get_nnzU (set_num_levels h v) = get_nnzU h) ∧
    (get_level_maxrows (set_num_levels h v) = get_level_maxrows h) ∧
    (get_level_maxrowsperchunk (set_num_levels h v) = get_level_maxrowsperchunk h) ∧
    (is_symbolic_complete (set_num_levels h v) = is_symbolic_complete h) ∧
    (get_team_size (set_num_levels h v) = get_team_size h) ∧
    (get_vector_size (set_num_levels h v) = get_vector_size h) ∧
    (get_algorithm (set_algorithm h a) = a) ∧
    (get_level_list (set_algorithm h a) = get_level_list h) ∧
    (get_level_idx (set_algorithm h a) = get_level_idx h) ∧
    (get_level_ptr (set_algorithm h a) = get_level_ptr h) ∧
    (get_level_nchunks (set_algorithm h a) = get_level_nchunks h) ∧
    (get_level_nrowsperchunk (set_algorithm h a) = get_level_nrowsperchunk h) ∧
    (get_iw (set_algorithm h a) = get_iw h) ∧
    (get_nrows (set_algorithm h a) = get_nrows h) ∧
    (get_nnzL (set_algorithm h a) = get_nnzL h) ∧
    (get_nnzU (set_algorithm h a) = get_nnzU h) ∧
    (get_level_maxrows (set_algorithm h a) = get_level_maxrows h) ∧
    (get_level_maxrowsperchunk (set_algorithm h a) = get_level_maxrowsperchunk h) ∧
    (is_symbolic_complete (set_algorithm h a) = is_symbolic_complete h) ∧
    (get_num_levels (set_algorithm h a) = get_num_levels h) ∧
    (get_team_size (set_algorithm h a) = get_team_size h) ∧
    (get_vector_size (set_algorithm h a) = get_vector_size h) ∧
    (get_team_size (set_team_size h t) = t) ∧
    (get_algorithm (set_team_size h t) = get_algorithm h) ∧
    (get_level_list (set_team_size h t) = get_level_list h) ∧
    (get_level_idx (set_team_size h t) = get_level_idx h) ∧
    (get_level_ptr (set_team_size h t) = get_level_ptr h) ∧
    (get_level_nchunks (set_team_size h t) = get_level_nchunks h) ∧
    (get_level_nrowsperchunk (set_team_size h t) = get_level_nrowsperchunk h) ∧
    (get_iw (set_team_size h t) = get_iw h) ∧
    (get_nrows (set_team_size h t) = get_nrows h) ∧
    (get_nnzL (set_team_size h t) = get_nnzL h) ∧
    (get_nnzU (set_team_size h t) = get_nnzU h) ∧
    (get_level_maxrows (set_team_size h t) = get_level_maxrows h) ∧
    (get_level_maxrowsperchunk (set_team_size h t) = get_level_maxrowsperchunk h) ∧
    (is_symbolic_complete (set_team_size h t) = is_symbolic_complete h) ∧
    (get_num_levels (set_team_size h t) = get_num_levels h) ∧
    (get_vector_size (set_team_size h t) = get_vector_size h) ∧
    (get_vector_size (set_vector_size h t) = t) ∧
    (get_algorithm (set_vector_size h t) = get_algorithm h) ∧
    (get_level_list (set_vector_size h t) = get_level_list h) ∧
    (get_level_idx (set_vector_size h t) = get_level_idx h) ∧
    (get_level_ptr (set_vector_size h t) = get_level_ptr h) ∧
    (get_level_nchunks (set_vector_size h t) = get_level_nchunks h) ∧
    (get_level_nrowsperchunk (set_vector_size h t) = get_level_nrowsperchunk h) ∧
    (get_iw (set_vector_size h t) = get_iw h) ∧
    (get_nrows (set_vector_size h t) = get_nrows h) ∧
    (get_nnzL (set_vector_size h t) = get_nnzL h) ∧
    (get_nnzU (set_vector_size h t) = get_nnzU h) ∧
    (get_level_maxrows (set_vector_size h t) = get_level_maxrows h) ∧
    (get_level_maxrowsperchunk (set_vector_size h t) = get_level_maxrowsperchunk h) ∧
    (is_symbolic_complete (set_vector_size h t) = is_symbolic_complete h) ∧
    (get_num_levels (set_vector_size h t) = get_num_levels h) ∧
    (get_team_size (set_vector_size h t) = get_team_size h) := by
  and_intros <;> rfl

end HandleTheorems

section IOUtilsTheorems

open KokkosSparse.Impl

/-- Twice the row pointer of the lower-triangle generator is `r (r+1)`. -/
lemma lut_rowPtr_L_twice (nc : Nat) : ∀ r : Nat,
    2 * lut_rowPtr 'L' nc r = (r : Int) * (r + 1)
  | 0 => by simp [lut_rowPtr]
  | r + 1 => by
    have ih := lut_rowPtr_L_twice nc r
    simp only [lut_rowPtr, lut_rowlen, if_pos rfl]
    push_cast
    linear_combination ih

/-- The length of row `r` of the lower-triangle pattern is `r + 1`. -/
lemma lut_len_L (nc r : Nat) :
    (lut_rowPtr 'L' nc (r + 1) - lut_rowPtr 'L' nc r).toNat = r + 1 := by
  simp [lut_rowPtr, lut_rowlen]

/-- Row `r` of the lower-triangle `colInd` is `[0, 1, ..., r]`. -/
lemma lut_colRow_L (nc r : Nat) :
    lut_colRow 'L' nc r = (List.range (r + 1)).map (fun t : Nat => (t : Int)) := by
  simp only [lut_colRow]
  rw [lut_len_L]
  refine List.map_congr_left ?_
  intro t _
  simp

/-- Row `r` of the lower-triangle `values` is `r + 1` copies of `1.0`. -/
lemma lut_valRow_L (nc r : Nat) :
    lut_valRow 'L' nc r = List.replicate (r + 1) (1 : Int) := by
  simp only [lut_valRow]
  rw [lut_len_L]

/-- A `w`-byte field encodes to exactly `w` bytes. -/
lemma encodeLE_length : ∀ (w v : Nat), (encodeLE w v).length = w
  | 0, _ => rfl
  | w + 1, v => by simp [encodeLE, encodeLE_length w]

/-- Decoding inverts encoding for values that fit in the field width. -/
lemma decodeLE_encodeLE : ∀ (w v : Nat), v < 256 ^ w →
    decodeLE (encodeLE w v) = v
  | 0, v, h => by
    simp [encodeLE, decodeLE]
    omega
  | w + 1, v, h => by
    have hdiv : v / 256 < 256 ^ w := by
      rw [Nat.div_lt_iff_lt_mul (by norm_num)]
      calc v < 256 ^ (w + 1) := h
        _ = 256 ^ w * 256 := by ring
    simp [encodeLE, decodeLE, decodeLE_encodeLE w (v / 256) hdiv]
    omega

/-- Reading one field back from the stream it was written to. -/
lemma readVal_encodeLE (w v : Nat) (rest : List Nat) (h : v < 256 ^ w) :
    readVal w (encodeLE w v ++ rest) = some (v, rest) := by
  unfold readVal
  rw [if_pos (by simp [encodeLE_length])]
  rw [List.take_left' (encodeLE_length w v), List.drop_left' (encodeLE_length w v),
    decodeLE_encodeLE w v h]

/-- Reading an array of fields back from the stream it was written to. -/
lemma readVals_encodeLE (w : Nat) : ∀ (l : List Nat) (rest : List Nat),
    (∀ v ∈ l, v < 256 ^ w) →
    readVals w l.length ((l.map (encodeLE w)).flatten ++ rest) = some (l, rest)
  | [], rest, _ => by simp [readVals]
  | a :: l, rest, h => by
    have ha : a < 256 ^ w := h a (by simp)
    have hl : ∀ v ∈ l, v < 256 ^ w := fun v hv => h v (by simp [hv])
    simp only [List.map_cons, List.flatten_cons, List.length_cons, List.append_assoc,
      readVals, readVal_encodeLE w a _ ha, readVals_encodeLE w l rest hl]

/-- `readVals_encodeLE` with the field count given by an equation, in
the form the round-trip proof rewrites with. -/
lemma readVals_encodeLE_of_eq (w n : Nat) (l rest : List Nat) (hn : n = l.length)
    (h : ∀ v ∈ l, v < 256 ^ w) :
    readVals w n ((l.map (encodeLE w)).flatten ++ rest) = some (l, rest) := by
  rw [hn]; exact readVals_encodeLE w l rest h

/-- `readVals_encodeLE` at the end of the stream (no trailing bytes). -/
lemma readVals_encodeLE_last (w n : Nat) (l : List Nat) (hn : n = l.length)
    (h : ∀ v ∈ l, v < 256 ^ w) :
    readVals w n (l.map (encodeLE w)).flatten = some (l, []) := by
  have h2 := readVals_encodeLE_of_eq w n l [] hn h
  simpa using h2

/-- Claim C7: round-trip of the raw binary graph format.  Writing
`(nv, ne, xadj, adj, ew)` with `write_graph_bin` and reading the
resulting byte stream back with `read_graph_bin` (with matching
`lno_t`/`size_type`/`scalar_t` widths) recovers exactly the same `nv`,
`ne`, `xadj`, `adj` and `ew`, the fields being written and read in the
order: row count, nnz count, row-offsets, column-indices, values. -/
theorem write_read_graph_bin (wl ws wsc nv ne : Nat) (xadj adj ew : List Nat)
    (hx : xadj.length = nv + 1) (ha : adj.length = ne) (he : ew.length = ne)
    (hnv : nv < 256 ^ wl) (hne : ne < 256 ^ ws)
    (hxv : ∀ v ∈ xadj, v < 256 ^ ws) (hav : ∀ v ∈ adj, v < 256 ^ wl)
    (hev : ∀ v ∈ ew, v < 256 ^ wsc) :
    read_graph_bin wl ws wsc (write_graph_bin wl ws wsc nv ne xadj adj ew) =
      some (nv, ne, xadj, adj, ew) := by
  have htx : xadj.take (nv + 1) = xadj := by rw [← hx]; exact List.take_length ..
  have hta : adj.take ne = adj := by rw [← ha]; exact List.take_length ..
  have hte : ew.take ne = ew := by rw [← he]; exact List.take_length ..
  unfold write_graph_bin read_graph_bin
  rw [htx, hta, hte]
  simp only [List.append_assoc]
  simp only [readVal_encodeLE wl nv _ hnv, readVal_encodeLE ws ne _ hne,
    readVals_encodeLE_of_eq ws (nv + 1) xadj _ hx.symm hxv,
    readVals_encodeLE_of_eq wl ne adj _ ha.symm hav,
    readVals_encodeLE_last wsc ne ew he.symm hev]

/-- Witness for claim C7 on a concrete 2-vertex, 3-edge graph with
4-byte offsets, 2-byte ordinals and 8-byte scalars. -/
theorem write_read_graph_bin_witness :
    read_graph_bin 2 4 8 (write_graph_bin 2 4 8 2 3 [0, 1, 3] [1, 0, 1] [7, 8, 9]) =
      some (2, 3, [0, 1, 3], [1, 0, 1], [7, 8, 9]) :=
  write_read_graph_bin 2 4 8 2 3 [0, 1, 3] [1, 0, 1] [7, 8, 9]
    (by decide) (by decide) (by decide) (by decide) (by decide)
    (by decide) (by decide) (by decide)

/-- Claim C9: for `uplo = 'L'` on an `n × n` matrix,
`kk_sparseMatrix_generate_lower_upper_triangle` produces a CRS in which
row `r` has exactly `r + 1` entries whose column indices are exactly
`0, 1, ..., r` in ascending order (so the diagonal entry is present),
every value equals `1.0`, and the returned `nnz` equals `n (n+1) / 2`. -/
theorem lower_triangle_spec (n : Nat) :
    (kk_sparseMatrix_generate_lower_upper_triangle 'L' n n).2.2.2 =
      ((n * (n + 1) / 2 : Nat) : Int) ∧
    (kk_sparseMatrix_generate_lower_upper_triangle 'L' n n).2.1.length = n ∧
    ∀ r, r < n →
      ((kk_sparseMatrix_generate_lower_upper_triangle 'L' n n).2.1.getD r []).length
        = r + 1 ∧
      (kk_sparseMatrix_generate_lower_upper_triangle 'L' n n).2.1.getD r []
        = (List.range (r + 1)).map (fun t : Nat => (t : Int)) ∧
      (kk_sparseMatrix_generate_lower_upper_triangle 'L' n n).2.2.1.getD r []
        = List.replicate (r + 1) (1 : Int) := by
  refine ⟨?_, ?_, ?_⟩
  · show lut_rowPtr 'L' n n = ((n * (n + 1) / 2 : Nat) : Int)
    have h2 := lut_rowPtr_L_twice n n
    have hcast : ((n * (n + 1) : Nat) : Int) = (n : Int) * (n + 1) := by push_cast; ring
    omega
  · simp [kk_sparseMatrix_generate_lower_upper_triangle]
  · intro r hr
    have hmem : (kk_sparseMatrix_generate_lower_upper_triangle 'L' n n).2.1.getD r []
        = lut_colRow 'L' n r := by
      simp [kk_sparseMatrix_generate_lower_upper_triangle, List.getElem?_range hr]
    have hval : (kk_sparseMatrix_generate_lower_upper_triangle 'L' n n).2.2.1.getD r []
        = lut_valRow 'L' n r := by
      simp [kk_sparseMatrix_generate_lower_upper_triangle, List.getElem?_range hr]
    refine ⟨?_, ?_, ?_⟩
    · rw [hmem, lut_colRow_L]; simp
    · rw [hmem, lut_colRow_L]
    · rw [hval, lut_valRow_L]

/-- Witness for claim C9 at `n = 3`, row `r = 1`. -/
theorem lower_triangle_witness :
    (kk_sparseMatrix_generate_lower_upper_triangle 'L' 3 3).2.2.2 =
      ((3 * (3 + 1) / 2 : Nat) : Int) ∧
    (kk_sparseMatrix_generate_lower_upper_triangle 'L' 3 3).2.1.getD 1 []
      = (List.range 2).map (fun t : Nat => (t : Int)) := by
  have h := lower_triangle_spec 3
  exact ⟨h.1, (h.2.2 1 (by decide)).2.1⟩

end IOUtilsTheorems

section IamaxTheorems

open KokkosBlas.Impl

/-- Splitting the last reduction step of the 1-based Iamax range. -/
lemma iamax_fold_succ (x : List Int) (n : Nat) :
    (List.range' 1 (n + 1)).foldl (V_Iamax_step x) 1 =
      V_Iamax_step x ((List.range' 1 n).foldl (V_Iamax_step x) 1) (n + 1) := by
  rw [List.range'_concat, List.foldl_append]
  simp [Nat.add_comm]

/-- Invariant of the Iamax reduction: after processing `i = 1..n` the
accumulator is a 1-based index in `[1, max 1 n]` whose element's
magnitude dominates the first `n` elements. -/
lemma iamax_fold_invariant (x : List Int) : ∀ n : Nat,
    1 ≤ (List.range' 1 n).foldl (V_Iamax_step x) 1 ∧
    (List.range' 1 n).foldl (V_Iamax_step x) 1 ≤ max 1 n ∧
    ∀ j, j < n →
      (x.getD j 0).natAbs ≤
        (x.getD ((List.range' 1 n).foldl (V_Iamax_step x) 1 - 1) 0).natAbs
  | 0 => by simp
  | n + 1 => by
    obtain ⟨ih1, ih2, ih3⟩ := iamax_fold_invariant x n
    rw [iamax_fold_succ]
    set m := (List.range' 1 n).foldl (V_Iamax_step x) 1 with hm
    unfold V_Iamax_step
    by_cases hcmp : (x.getD (n + 1 - 1) 0).natAbs > (x.getD (m - 1) 0).natAbs
    · rw [if_pos hcmp]
      refine ⟨by omega, by omega, ?_⟩
      intro j hj
      rcases Nat.lt_succ_iff_lt_or_eq.mp hj with hjn | hjn
      · exact le_trans (ih3 j hjn) (by simpa using le_of_lt hcmp)
      · subst hjn; simp
    · rw [if_neg hcmp]
      refine ⟨ih1, by omega, ?_⟩
      intro j hj
      rcases Nat.lt_succ_iff_lt_or_eq.mp hj with hjn | hjn
      · exact ih3 j hjn
      · subst hjn; simpa using Nat.le_of_not_lt hcmp

/-- Claim C10: `V_Iamax_Invoke` writes 0 for a zero-length input vector;
for a non-empty vector of length `n` it writes a 1-based index `m` with
`1 ≤ m ≤ n` such that the magnitude of `x[m-1]` is greater than or
equal to the magnitude of every element of `x`. -/
theorem V_Iamax_Invoke_spec (x : List Int) :
    (x.length = 0 → V_Iamax_Invoke x = 0) ∧
    (x ≠ [] →
      1 ≤ V_Iamax_Invoke x ∧ V_Iamax_Invoke x ≤ x.length ∧
      ∀ j, j < x.length →
        (x.getD j 0).natAbs ≤ (x.getD (V_Iamax_Invoke x - 1) 0).natAbs) := by
  constructor
  · intro h0
    simp [V_Iamax_Invoke, h0]
  · intro hne
    have hlen : x.length ≠ 0 := by simpa using hne
    obtain ⟨h1, h2, h3⟩ := iamax_fold_invariant x x.length
    unfold V_Iamax_Invoke
    rw [if_neg hlen]
    exact ⟨h1, by omega, h3⟩

/-- Witness for claim C10 on the empty vector and on `[2, -5, 3]`
(whose largest magnitude sits at 1-based index 2). -/
theorem V_Iamax_Invoke_witness :
    V_Iamax_Invoke [] = 0 ∧
    (1 ≤ V_Iamax_Invoke [2, -5, 3] ∧ V_Iamax_Invoke [2, -5, 3] ≤ 3 ∧
      (([2, -5, 3] : List Int).getD 0 0).natAbs ≤
        (([2, -5, 3] : List Int).getD (V_Iamax_Invoke [2, -5, 3] - 1) 0).natAbs) := by
  have h0 := (V_Iamax_Invoke_spec []).1 rfl
  have h := (V_Iamax_Invoke_spec [2, -5, 3]).2 (by decide)
  exact ⟨h0, h.1, h.2.1, h.2.2 0 (by decide)⟩

end IamaxTheorems

section GenerateTheorems

open KokkosSparse.Impl

/-- The first wrap loop exits with a nonnegative value and preserves the
residue modulo `ncols`. -/
lemma wrapUp_nonneg_emod (ncols : Nat) (p : Int) (h : ncols ≠ 0) :
    0 ≤ wrapUp ncols p ∧ wrapUp ncols p % (ncols : Int) = p % (ncols : Int) := by
  rw [wrapUp]
  split
  next hc => exact absurd hc h
  next hc =>
    split
    next hneg =>
      obtain ⟨ih1, ih2⟩ := wrapUp_nonneg_emod ncols (p + ncols) h
      refine ⟨ih1, ?_⟩
      rw [ih2, show p + (ncols : Int) = p + 1 * ncols by ring, Int.add_mul_emod_self]
    next hpos => exact ⟨by omega, rfl⟩
termination_by (-p).toNat
decreasing_by omega

/-- The second wrap loop computes the Euclidean remainder on
nonnegative input. -/
lemma wrapDown_eq_emod (ncols : Nat) (p : Int) (h : ncols ≠ 0) (hp : 0 ≤ p) :
    wrapDown ncols p = p % (ncols : Int) := by
  rw [wrapDown]
  split
  next hc => exact absurd hc h
  next hc =>
    split
    next hge =>
      rw [wrapDown_eq_emod ncols (p - ncols) h (by omega)]
      rw [show p - (ncols : Int) = p + (-1) * ncols by ring, Int.add_mul_emod_self]
    next hlt => exact (Int.emod_eq_of_lt hp (by omega)).symm
termination_by p.toNat
decreasing_by omega

/-- The two wrap loops together compute the Euclidean remainder. -/
lemma wrapPos_eq (ncols : Nat) (p : Int) (h : ncols ≠ 0) :
    wrapPos ncols p = p % (ncols : Int) := by
  obtain ⟨h1, h2⟩ := wrapUp_nonneg_emod ncols p h
  unfold wrapPos
  rw [wrapDown_eq_emod ncols _ h h1, h2]

/-- The wrapped position lies in `[0, ncols)`. -/
lemma wrapPos_range (ncols : Nat) (p : Int) (h : ncols ≠ 0) :
    0 ≤ wrapPos ncols p ∧ wrapPos ncols p < (ncols : Int) := by
  rw [wrapPos_eq ncols p h]
  have hc : (0 : Int) < ncols := by omega
  exact ⟨Int.emod_nonneg p (by omega), Int.emod_lt_of_pos p hc⟩

/-- A successful rejection-loop pick is fresh and in column range. -/
lemma pickPos_spec (ncols : Nat) (h : ncols ≠ 0) :
    ∀ (draws prev : List Int) (pos : Int) (ds : List Int),
      pickPos ncols prev draws = some (pos, ds) →
      pos ∉ prev ∧ 0 ≤ pos ∧ pos < (ncols : Int)
  | [], _, _, _, hp => by simp [pickPos] at hp
  | d :: draws, prev, pos, ds, hp => by
    unfold pickPos at hp
    by_cases hmem : wrapPos ncols d ∈ prev
    · rw [if_pos hmem] at hp
      exact pickPos_spec ncols h draws prev pos ds hp
    · rw [if_neg hmem] at hp
      obtain ⟨rfl, rfl⟩ : wrapPos ncols d = pos ∧ draws = ds := by simpa using hp
      exact ⟨hmem, (wrapPos_range ncols d h).1, (wrapPos_range ncols d h).2⟩

/-- Invariant of the row-filling loop: starting from a duplicate-free
in-range prefix, a successful run extends it to a duplicate-free
in-range row of the requested length. -/
lemma buildRow_spec (ncols : Nat) (h : ncols ≠ 0) :
    ∀ (cnt : Nat) (acc draws row rest : List Int),
      buildRow ncols cnt acc draws = some (row, rest) →
      acc.Nodup → (∀ v ∈ acc, 0 ≤ v ∧ v < (ncols : Int)) →
      row.length = acc.length + cnt ∧ row.Nodup ∧
        ∀ v ∈ row, 0 ≤ v ∧ v < (ncols : Int)
  | 0, acc, draws, row, rest, hb, hnd, hin => by
    obtain ⟨rfl, rfl⟩ : acc = row ∧ draws = rest := by simpa [buildRow] using hb
    exact ⟨by omega, hnd, hin⟩
  | cnt + 1, acc, draws, row, rest, hb, hnd, hin => by
    cases hpick : pickPos ncols acc draws with
    | none => simp [buildRow, hpick] at hb
    | some pr =>
      obtain ⟨pos, ds⟩ := pr
      simp only [buildRow, hpick] at hb
      obtain ⟨hnotmem, hge, hlt⟩ := pickPos_spec ncols h draws acc pos ds hpick
      have hnd2 : (acc ++ [pos]).Nodup := by
        simp [List.nodup_append, hnd, hnotmem]
      have hin2 : ∀ v ∈ acc ++ [pos], 0 ≤ v ∧ v < (ncols : Int) := by
        intro v hv
        rcases List.mem_append.mp hv with hv | hv
        · exact hin v hv
        · obtain rfl : v = pos := by simpa using hv
          exact ⟨hge, hlt⟩
      obtain ⟨ih1, ih2, ih3⟩ :=
        buildRow_spec ncols h cnt (acc ++ [pos]) ds row rest hb hnd2 hin2
      refine ⟨?_, ih2, ih3⟩
      simp only [List.length_append, List.length_cons, List.length_nil] at ih1
      omega

/-- Invariant of the outer column-filling loop: a successful run
produces one duplicate-free in-range row of the requested length per
requested row length. -/
lemma buildColInd_spec (ncols : Nat) (h : ncols ≠ 0) :
    ∀ (lens : List Nat) (draws : List Int) (rows : List (List Int)) (rest : List Int),
      buildColInd ncols lens draws = some (rows, rest) →
      rows.length = lens.length ∧
        ∀ k, k < lens.length →
          (rows.getD k []).length = lens.getD k 0 ∧
          (rows.getD k []).Nodup ∧
          ∀ v ∈ rows.getD k [], 0 ≤ v ∧ v < (ncols : Int)
  | [], draws, rows, rest, hb => by
    obtain ⟨rfl, rfl⟩ : ([] : List (List Int)) = rows ∧ draws = rest := by
      simpa [buildColInd] using hb
    exact ⟨rfl, fun k hk => absurd hk (by simp)⟩
  | len :: lens, draws, rows, rest, hb => by
    cases hrow : buildRow ncols len [] draws with
    | none => simp [buildColInd, hrow] at hb
    | some pr =>
      obtain ⟨row, ds⟩ := pr
      cases hrest2 : buildColInd ncols lens ds with
      | none => simp [buildColInd, hrow, hrest2] at hb
      | some pr2 =>
        obtain ⟨rows2, ds2⟩ := pr2
        obtain ⟨rfl, rfl⟩ : row :: rows2 = rows ∧ ds2 = rest := by
          simpa [buildColInd, hrow, hrest2] using hb
        obtain ⟨hr1, hr2, hr3⟩ :=
          buildRow_spec ncols h len [] draws row ds hrow (by simp) (by simp)
        obtain ⟨hc1, hc2⟩ := buildColInd_spec ncols h lens ds rows2 ds2 hrest2
        refine ⟨by simp [hc1], ?_⟩
        intro k hk
        cases k with
        | zero => exact ⟨by simpa using hr1, hr2, hr3⟩
        | succ k =>
          have hk2 : k < lens.length := by simpa using hk
          simpa using hc2 k hk2

/-- Entry `i` of the additive scan is the seed plus the sum of the
first `i` row lengths. -/
lemma scanl_add_getD :
    ∀ (lens : List Nat) (a i : Nat), i ≤ lens.length →
      (List.scanl (fun x y => x + y) a lens).getD i 0 = a + (lens.take i).sum
  | lens, a, 0, _ => by cases lens <;> simp [List.scanl]
  | [], a, i + 1, h => by simp at h
  | b :: lens, a, i + 1, h => by
    simp only [List.scanl_cons, List.singleton_append, List.getD_cons_succ]
    rw [scanl_add_getD lens (a + b) i (by simpa using h)]
    simp [Nat.add_assoc]

/-- The sum of the first `i + 1` elements adds element `i`. -/
lemma sum_take_getD :
    ∀ (lens : List Nat) (i : Nat), i < lens.length →
      (lens.take (i + 1)).sum = (lens.take i).sum + lens.getD i 0
  | [], i, h => by simp at h
  | b :: lens, 0, _ => by simp
  | b :: lens, i + 1, h => by
    simp only [List.take_succ_cons, List.sum_cons, List.getD_cons_succ]
    rw [sum_take_getD lens i (by simpa using h)]
    omega

/-- The last entry of the additive scan is the seed plus the total sum
(for any default value, since the scan is never empty). -/
lemma scanl_add_getLastD :
    ∀ (lens : List Nat) (a d : Nat),
      (List.scanl (fun x y => x + y) a lens).getLastD d = a + lens.sum
  | [], a, d => by simp [List.scanl]
  | b :: lens, a, d => by
    simp only [List.scanl_cons, List.singleton_append, List.getLastD_cons]
    rw [scanl_add_getLastD lens (a + b) a]
    simp [Nat.add_assoc]

/-- Claim C6: whenever `kk_sparseMatrix_generate` completes (the
rejection sampling succeeds within the provided random draws) with
`ncols > 0`, the produced CRS triple satisfies the CRS invariants:
`rowPtr[0] = 0`, `rowPtr` is monotonic non-decreasing,
`rowPtr[nrows]` equals the returned `nnz`, every column index lies in
`[0, ncols)`, and the column indices within each row's slice are
pairwise distinct. -/
theorem kk_sparseMatrix_generate_spec (nrows ncols nnz : Nat)
    (vz draws : List Int) (res : GeneratedCrs)
    (hv : vz.length = nrows) (hc : 0 < ncols)
    (hres : kk_sparseMatrix_generate nrows ncols nnz vz draws = some res) :
    res.rowPtr.length = nrows + 1 ∧
    res.rowPtr.getD 0 0 = 0 ∧
    (∀ k, k < nrows → res.rowPtr.getD k 0 ≤ res.rowPtr.getD (k + 1) 0) ∧
    res.nnz = res.rowPtr.getD nrows 0 ∧
    res.rows.length = nrows ∧
    ∀ k, k < nrows →
      res.rowPtr.getD (k + 1) 0 =
        res.rowPtr.getD k 0 + (res.rows.getD k []).length ∧
      (res.rows.getD k []).Nodup ∧
      ∀ c ∈ res.rows.getD k [], 0 ≤ c ∧ c < (ncols : Int) := by
  have hc0 : ncols ≠ 0 := by omega
  simp only [kk_sparseMatrix_generate] at hres
  cases hbci : buildColInd ncols
      (vz.map (fun v => genRowLen ncols
        (if nrows = 0 then 0 else ((nnz / nrows : Nat) : Int)) v)) draws with
  | none =>
    rw [hbci] at hres
    simp at hres
  | some pr =>
    obtain ⟨rows, rest⟩ := pr
    rw [hbci] at hres
    simp only [Option.some.injEq] at hres
    obtain rfl := hres
    have hll : (vz.map (fun v => genRowLen ncols
        (if nrows = 0 then 0 else ((nnz / nrows : Nat) : Int)) v)).length = nrows := by
      simp [hv]
    obtain ⟨hc1, hc2⟩ := buildColInd_spec ncols hc0 _ draws rows rest hbci
    refine ⟨?_, ?_, ?_, ?_, ?_, ?_⟩
    · simp [List.length_scanl, hv]
    · rw [scanl_add_getD _ 0 0 (by omega)]
      simp
    · intro k hk
      rw [scanl_add_getD _ 0 k (by omega), scanl_add_getD _ 0 (k + 1) (by omega),
        sum_take_getD _ k (by omega)]
      omega
    · show (List.scanl _ 0 _).getLastD 0 = _
      rw [scanl_add_getLastD, scanl_add_getD _ 0 nrows (by omega)]
      rw [List.take_of_length_le (le_of_eq hll)]
    · rw [hc1, hll]
    · intro k hk
      obtain ⟨hk1, hk2, hk3⟩ := hc2 k (by omega)
      refine ⟨?_, hk2, hk3⟩
      rw [scanl_add_getD _ 0 k (by omega), scanl_add_getD _ 0 (k + 1) (by omega),
        sum_take_getD _ k (by omega), hk1]
      omega

/-- Witness for claim C6: on `nrows = 2`, `ncols = 3`, requested
`nnz = 4`, zero variance draws and the raw position stream `[0, 1]`,
generation succeeds with `rowPtr = [0, 1, 2]` and rows `[[0], [1]]`
(the 0.66-clamp limits each row to one entry). -/
theorem kk_sparseMatrix_generate_witness :
    (⟨[0, 1, 2], [[0], [1]], 2⟩ : GeneratedCrs).nnz =
      (⟨[0, 1, 2], [[0], [1]], 2⟩ : GeneratedCrs).rowPtr.getD 2 0 ∧
    ((⟨[0, 1, 2], [[0], [1]], 2⟩ : GeneratedCrs).rows.getD 0 []).Nodup ∧
    ∀ c ∈ (⟨[0, 1, 2], [[0], [1]], 2⟩ : GeneratedCrs).rows.getD 0 [],
      0 ≤ c ∧ c < ((3 : Nat) : Int) := by
  have hres : kk_sparseMatrix_generate 2 3 4 [0, 0] [0, 1] =
      some ⟨[0, 1, 2], [[0], [1]], 2⟩ := by
    norm_num [kk_sparseMatrix_generate, buildColInd, buildRow, pickPos, genRowLen,
      List.scanl, wrapPos_eq 3 0 (by norm_num), wrapPos_eq 3 1 (by norm_num)]
  have h := kk_sparseMatrix_generate_spec 2 3 4 [0, 0] [0, 1]
    ⟨[0, 1, 2], [[0], [1]], 2⟩ rfl (by norm_num) hres
  obtain ⟨hrow, hnd, hrange⟩ := h.2.2.2.2.2 0 (by norm_num)
  exact ⟨h.2.2.2.1, hnd, hrange⟩

end GenerateTheorems
